import Mathlib

/-!
Verification development for the Binance futures connector
(`TradingBot/connectors/binance_futures.py`).

The Python source is shallowly embedded: insertion-ordered Python `dict`s
become association lists, raised exceptions become `Except` results, the
HTTP transport and the websocket are passed in as explicit arguments
(`Option Response` for a transport outcome, `Bool` for a send outcome),
and `hmac`/`hashlib`/`urllib.parse.urlencode` are implemented concretely.
Numeric values that Python renders with `str()` before signing are taken
as already-rendered strings; Python `float` values are modelled as exact
rationals (no claim below depends on binary rounding).
-/

namespace BF

/-! ### Insertion-ordered dictionaries (Python `dict` with string keys) -/

/-- Lookup in an insertion-ordered dictionary (`d[k]` / `d.get(k)`). -/
def dictGet {α : Type} : List (String × α) → String → Option α
  | [], _ => none
  | (k', v') :: rest, k => if k' = k then some v' else dictGet rest k

/-- Assignment `d[k] = v`: replaces the value in place when the key exists,
otherwise appends the new key (Python insertion-order semantics). -/
def dictSet {α : Type} : List (String × α) → String → α → List (String × α)
  | [], k, v => [(k, v)]
  | (k', v') :: rest, k, v =>
    if k' = k then (k', v) :: rest else (k', v') :: dictSet rest k v

/-- Key-membership test (`k in d`). -/
def hasKey {α : Type} (d : List (String × α)) (k : String) : Bool :=
  (dictGet d k).isSome

/-! ### UTF-8 bytes and `urllib.parse.urlencode` (with `quote_plus`) -/

/-- UTF-8 encoding of a single character (Python `str.encode()`). -/
def utf8Bytes (c : Char) : List Nat :=
  let n := c.toNat
  if n < 128 then [n]
  else if n < 2048 then [192 + n / 64, 128 + n % 64]
  else if n < 65536 then [224 + n / 4096, 128 + n / 64 % 64, 128 + n % 64]
  else [240 + n / 262144, 128 + n / 4096 % 64, 128 + n / 64 % 64, 128 + n % 64]

/-- UTF-8 bytes of a whole string. -/
def strBytes (s : String) : List Nat :=
  s.data.flatMap utf8Bytes

/-- Bytes that `urllib.parse.quote_plus` leaves unescaped:
ASCII letters, digits, and `_.-~`. -/
def safeByte (b : Nat) : Bool :=
  (48 ≤ b && b ≤ 57) || (65 ≤ b && b ≤ 90) || (97 ≤ b && b ≤ 122) ||
    b = 95 || b = 46 || b = 45 || b = 126

/-- Uppercase hex digit, as used in percent-escapes. -/
def hexUpper (n : Nat) : Char :=
  if n < 10 then Char.ofNat (48 + n) else Char.ofNat (55 + n)

/-- `urllib.parse.quote_plus`: safe bytes pass through, a space becomes `+`,
everything else becomes a `%XX` escape of its UTF-8 bytes. -/
def quote_plus (s : String) : String :=
  String.mk ((strBytes s).flatMap fun b =>
    if safeByte b then [Char.ofNat b]
    else if b = 32 then [Char.ofNat 43]
    else [Char.ofNat 37, hexUpper (b / 16), hexUpper (b % 16)])

/-- `urllib.parse.urlencode`: the canonical `k1=v1&k2=v2` query string over the
parameters in insertion order. -/
def urlencode (d : List (String × String)) : String :=
  String.intercalate "&" (d.map fun p => quote_plus p.1 ++ "=" ++ quote_plus p.2)

/-! ### SHA-256 (`hashlib.sha256`) -/

/-- Truncation to a 32-bit word. -/
def w32 (x : Nat) : Nat := x % 4294967296

/-- 32-bit right rotation. -/
def rotr (n x : Nat) : Nat := w32 ((x >>> n) ||| (x <<< (32 - n)))

/-- The eight working variables of the SHA-256 compression function. -/
structure H8 where
  a : Nat
  b : Nat
  c : Nat
  d : Nat
  e : Nat
  f : Nat
  g : Nat
  h : Nat

/-- SHA-256 initial hash value (FIPS 180-4, in decimal). -/
def initH : H8 :=
  ⟨1779033703, 3144134277, 1013904242, 2773480762,
   1359893119, 2600822924, 528734635, 1541459225⟩

/-- SHA-256 round constants (FIPS 180-4, in decimal). -/
def K : List Nat :=
  [1116352408, 1899447441, 3049323471, 3921009573, 961987163,
   1508970993, 2453635748, 2870763221, 3624381080, 310598401,
   607225278, 1426881987, 1925078388, 2162078206, 2614888103,
   3248222580, 3835390401, 4022224774, 264347078, 604807628,
   770255983, 1249150122, 1555081692, 1996064986, 2554220882,
   2821834349, 2952996808, 3210313671, 3336571891, 3584528711,
   113926993, 338241895, 666307205, 773529912, 1294757372,
   1396182291, 1695183700, 1986661051, 2177026350, 2456956037,
   2730485921, 2820302411, 3259730800, 3345764771, 3516065817,
   3600352804, 4094571909, 275423344, 430227734, 506948616,
   659060556, 883997877, 958139571, 1322822218, 1537002063,
   1747873779, 1955562222, 2024104815, 2227730452, 2361852424,
   2428436474, 2756734187, 3204031479, 3329325298]

/-- Big-endian 8-byte encoding of the message bit length. -/
def be8 (n : Nat) : List Nat :=
  [n / 72057594037927936 % 256, n / 281474976710656 % 256,
   n / 1099511627776 % 256, n / 4294967296 % 256,
   n / 16777216 % 256, n / 65536 % 256, n / 256 % 256, n % 256]

/-- SHA-256 message padding: `0x80`, zeros to 56 mod 64, 64-bit bit length. -/
def padMsg (ms : List Nat) : List Nat :=
  ms ++ 128 :: List.replicate ((119 - ms.length % 64) % 64) 0 ++ be8 (8 * ms.length)

/-- Group four bytes into one big-endian 32-bit word. -/
def bytesToWords : List Nat → List Nat
  | a :: b :: c :: d :: rest => (a * 16777216 + b * 65536 + c * 256 + d) :: bytesToWords rest
  | _ => []

/-- One step of the SHA-256 message-schedule extension: append the next word
computed from the last sixteen. -/
def scheduleStep (w : List Nat) : List Nat :=
  let i := w.length
  let wm16 := w.getD (i - 16) 0
  let wm15 := w.getD (i - 15) 0
  let wm7 := w.getD (i - 7) 0
  let wm2 := w.getD (i - 2) 0
  let s0 := (rotr 7 wm15) ^^^ (rotr 18 wm15) ^^^ (wm15 >>> 3)
  let s1 := (rotr 17 wm2) ^^^ (rotr 19 wm2) ^^^ (wm2 >>> 10)
  w ++ [w32 (wm16 + s0 + wm7 + s1)]

/-- Iterate the schedule extension. -/
def extendW : Nat → List Nat → List Nat
  | 0, w => w
  | n + 1, w => extendW n (scheduleStep w)

/-- One SHA-256 compression round. -/
def compress1 (st : H8) (p : Nat × Nat) : H8 :=
  let s1 := (rotr 6 st.e) ^^^ (rotr 11 st.e) ^^^ (rotr 25 st.e)
  let ch := (st.e &&& st.f) ^^^ ((st.e ^^^ 4294967295) &&& st.g)
  let t1 := w32 (st.h + s1 + ch + p.2 + p.1)
  let s0 := (rotr 2 st.a) ^^^ (rotr 13 st.a) ^^^ (rotr 22 st.a)
  let mj := (st.a &&& st.b) ^^^ (st.a &&& st.c) ^^^ (st.b &&& st.c)
  let t2 := w32 (s0 + mj)
  ⟨w32 (t1 + t2), st.a, st.b, st.c, w32 (st.d + t1), st.e, st.f, st.g⟩

/-- Process one 64-byte chunk. -/
def compressChunk (h0 : H8) (chunk : List Nat) : H8 :=
  let w := extendW 48 (bytesToWords chunk)
  let st := List.foldl compress1 h0 (w.zip K)
  ⟨w32 (h0.a + st.a), w32 (h0.b + st.b), w32 (h0.c + st.c), w32 (h0.d + st.d),
   w32 (h0.e + st.e), w32 (h0.f + st.f), w32 (h0.g + st.g), w32 (h0.h + st.h)⟩

/-- Split a byte list into 64-byte chunks (fuel-indexed for structural
recursion; the fuel passed in always suffices). -/
def chunksF : Nat → List Nat → List (List Nat)
  | 0, _ => []
  | _, [] => []
  | n + 1, l => l.take 64 :: chunksF n (l.drop 64)

/-- Big-endian bytes of one 32-bit word. -/
def wordBytes (w : Nat) : List Nat :=
  [w / 16777216 % 256, w / 65536 % 256, w / 256 % 256, w % 256]

/-- The 32 digest bytes of a final hash state. -/
def digestBytes (st : H8) : List Nat :=
  wordBytes st.a ++ wordBytes st.b ++ wordBytes st.c ++ wordBytes st.d ++
  wordBytes st.e ++ wordBytes st.f ++ wordBytes st.g ++ wordBytes st.h

/-- SHA-256 of a byte string. -/
def sha256 (ms : List Nat) : List Nat :=
  let padded := padMsg ms
  digestBytes (List.foldl compressChunk initH (chunksF (padded.length / 64 + 1) padded))

/-! ### HMAC-SHA256 (`hmac.new(key, msg, hashlib.sha256)`) -/

/-- HMAC-SHA256 digest bytes. -/
def hmacSha256 (key msg : List Nat) : List Nat :=
  let k0 := if key.length > 64 then sha256 key else key
  let kp := k0 ++ List.replicate (64 - k0.length) 0
  sha256 ((kp.map fun b => b ^^^ 92) ++ sha256 ((kp.map fun b => b ^^^ 54) ++ msg))

/-- Lowercase hex digit. -/
def hexChar (n : Nat) : Char :=
  if n < 10 then Char.ofNat (48 + n) else Char.ofNat (87 + n)

/-- Lowercase hex string of a byte list (`.hexdigest()`). -/
def bytesToHex (bs : List Nat) : String :=
  String.mk (bs.flatMap fun b => [hexChar (b / 16), hexChar (b % 16)])

/-- `_generate_signature` (binance_futures.py:51-52): hex HMAC-SHA256 of the
urlencoded parameters, keyed by the secret. -/
def generate_signature (secret : String) (data : List (String × String)) : String :=
  bytesToHex (hmacSha256 (strBytes secret) (strBytes (urlencode data)))

/-! ### JSON values and `json.loads`

The parser covers the JSON subset the exchange payloads use: objects,
arrays, strings with the single-character escapes, `true`/`false`/`null`,
and decimal numbers (no exponents or `\u` escapes). Numbers are exact
rationals. It is fuel-indexed for structural recursion; `jsonLoads`
supplies ample fuel. -/

inductive Json where
  | null : Json
  | bool (b : Bool) : Json
  | num (q : ℚ) : Json
  | str (s : String) : Json
  | arr (elems : List Json) : Json
  | obj (fields : List (String × Json)) : Json

instance {ε α : Type} [DecidableEq ε] [DecidableEq α] : DecidableEq (Except ε α) := fun x y =>
  match x, y with
  | .ok a, .ok b =>
    if h : a = b then isTrue (by rw [h]) else isFalse (by simp [h])
  | .error a, .error b =>
    if h : a = b then isTrue (by rw [h]) else isFalse (by simp [h])
  | .ok _, .error _ => isFalse (by simp)
  | .error _, .ok _ => isFalse (by simp)

/-- Python exceptions that the connector code can raise. -/
inductive PyErr where
  | valueError : PyErr
  | jsonDecodeError : PyErr
  | keyError (k : String) : PyErr
  | typeError : PyErr
  deriving DecidableEq

def isWsChar (c : Char) : Bool :=
  c.toNat = 32 || c.toNat = 9 || c.toNat = 10 || c.toNat = 13

def skipWs : List Char → List Char
  | [] => []
  | c :: cs => if isWsChar c then skipWs cs else c :: cs

/-- Translation of a string escape character. -/
def escChar (e : Char) : Option Char :=
  if e.toNat = 34 then some (Char.ofNat 34)
  else if e.toNat = 92 then some (Char.ofNat 92)
  else if e.toNat = 47 then some (Char.ofNat 47)
  else if e = 'n' then some (Char.ofNat 10)
  else if e = 't' then some (Char.ofNat 9)
  else if e = 'r' then some (Char.ofNat 13)
  else if e = 'b' then some (Char.ofNat 8)
  else if e = 'f' then some (Char.ofNat 12)
  else none

/-- Scan the body of a string literal (the opening quote already consumed),
returning its characters and the rest of the input. -/
def scanStr : Nat → List Char → Option (List Char × List Char)
  | 0, _ => none
  | _, [] => none
  | fuel + 1, c :: cs =>
    if c.toNat = 34 then some ([], cs)
    else if c.toNat = 92 then
      match cs with
      | [] => none
      | e :: cs2 =>
        match escChar e with
        | none => none
        | some r => (scanStr fuel cs2).map fun p => (r :: p.1, p.2)
    else if c.toNat < 32 then none
    else (scanStr fuel cs).map fun p => (c :: p.1, p.2)

def isDigitCh (c : Char) : Bool := 48 ≤ c.toNat && c.toNat ≤ 57

def takeDigits : List Char → List Char × List Char
  | [] => ([], [])
  | c :: cs =>
    if isDigitCh c then
      let p := takeDigits cs
      (c :: p.1, p.2)
    else ([], c :: cs)

def digitsToNat (ds : List Char) : Nat :=
  ds.foldl (fun a c => a * 10 + (c.toNat - 48)) 0

/-- Scan a decimal number: optional minus, integer part, optional fraction. -/
def scanNum (cs : List Char) : Option (ℚ × List Char) :=
  let sgn : Bool × List Char :=
    match cs with
    | c :: r => if c.toNat = 45 then (true, r) else (false, cs)
    | [] => (false, [])
  match takeDigits sgn.2 with
  | ([], _) => none
  | (ds, rest) =>
    let ip : ℚ := (digitsToNat ds : ℚ)
    let withFrac : Option (ℚ × List Char) :=
      match rest with
      | c :: r2 =>
        if c.toNat = 46 then
          match takeDigits r2 with
          | ([], _) => none
          | (fs, rest2) => some (ip + (digitsToNat fs : ℚ) / (10 : ℚ) ^ fs.length, rest2)
        else some (ip, rest)
      | [] => some (ip, rest)
    withFrac.map fun p => (if sgn.1 then -p.1 else p.1, p.2)

mutual

/-- Parse one JSON value starting at the given input. -/
def parseVal : Nat → List Char → Option (Json × List Char)
  | 0, _ => none
  | fuel + 1, cs =>
    match skipWs cs with
    | [] => none
    | c :: rest =>
      if c.toNat = 123 then
        match skipWs rest with
        | [] => none
        | d :: rest2 =>
          if d.toNat = 125 then some (.obj [], rest2)
          else parseFields fuel (d :: rest2)
      else if c.toNat = 91 then
        match skipWs rest with
        | [] => none
        | d :: rest2 =>
          if d.toNat = 93 then some (.arr [], rest2)
          else parseItems fuel (d :: rest2)
      else if c.toNat = 34 then
        (scanStr (rest.length + 1) rest).map fun p => (.str (String.mk p.1), p.2)
      else if c = 't' then
        if rest.take 3 = ['r', 'u', 'e'] then some (.bool true, rest.drop 3) else none
      else if c = 'f' then
        if rest.take 4 = ['a', 'l', 's', 'e'] then some (.bool false, rest.drop 4) else none
      else if c = 'n' then
        if rest.take 3 = ['u', 'l', 'l'] then some (.null, rest.drop 3) else none
      else
        (scanNum (c :: rest)).map fun p => (.num p.1, p.2)

/-- Parse the fields of an object, positioned at the opening quote of a key. -/
def parseFields : Nat → List Char → Option (Json × List Char)
  | 0, _ => none
  | fuel + 1, cs =>
    match cs with
    | [] => none
    | c :: rest =>
      if c.toNat = 34 then
        match scanStr (rest.length + 1) rest with
        | none => none
        | some (key, afterKey) =>
          match skipWs afterKey with
          | [] => none
          | d :: rest2 =>
            if d.toNat = 58 then
              match parseVal fuel rest2 with
              | none => none
              | some (v, afterVal) =>
                match skipWs afterVal with
                | [] => none
                | e :: rest3 =>
                  if e.toNat = 44 then
                    match parseFields fuel (skipWs rest3) with
                    | some (.obj fs, rem) => some (.obj ((String.mk key, v) :: fs), rem)
                    | _ => none
                  else if e.toNat = 125 then some (.obj [(String.mk key, v)], rest3)
                  else none
            else none
      else none

/-- Parse the items of an array, positioned at the start of an item. -/
def parseItems : Nat → List Char → Option (Json × List Char)
  | 0, _ => none
  | fuel + 1, cs =>
    match parseVal fuel cs with
    | none => none
    | some (v, after) =>
      match skipWs after with
      | [] => none
      | e :: rest =>
        if e.toNat = 44 then
          match parseItems fuel (skipWs rest) with
          | some (.arr xs, rem) => some (.arr (v :: xs), rem)
          | _ => none
        else if e.toNat = 93 then some (.arr [v], rest)
        else none

end

/-- `json.loads`: parse a complete document, `none` on malformed input
(where Python raises `json.JSONDecodeError`). -/
def jsonLoads (s : String) : Option Json :=
  match parseVal (s.length + 1) s.data with
  | some (j, rest) => if (skipWs rest).isEmpty then some j else none
  | none => none

/-- Subscript access `j[k]`: `KeyError` on a missing key, `TypeError` on a
non-object. -/
def Json.getKey : Json → String → Except PyErr Json
  | .obj fs, k =>
    match dictGet fs k with
    | some v => .ok v
    | none => .error (.keyError k)
  | _, _ => .error .typeError

/-- String extraction (the connector only uses string symbols). -/
def asStr : Json → Except PyErr String
  | .str s => .ok s
  | _ => .error .typeError

/-- Python `float(x)` applied to a decoded JSON leaf: numbers pass through,
numeric strings are parsed (modelled on the decimal forms the exchange
emits), anything else raises. -/
def jsonToFloat : Json → Except PyErr ℚ
  | .num q => .ok q
  | .str s =>
    match scanNum s.data with
    | some (q, []) => .ok q
    | _ => .error .valueError
  | .bool b => .ok (if b then 1 else 0)
  | _ => .error .typeError

/-- Does the list start with the given needle? -/
def startsWith : List Char → List Char → Bool
  | [], _ => true
  | _ :: _, [] => false
  | a :: as, b :: bs => a = b && startsWith as bs

/-- Contiguous-sublist test (Python substring membership). -/
def containsSub (needle : List Char) : List Char → Bool
  | [] => needle.isEmpty
  | c :: cs => startsWith needle (c :: cs) || containsSub needle cs

/-- Python `k in j` for a decoded JSON value: key membership for objects,
element equality for arrays, substring test for strings, `TypeError`
otherwise. -/
def jsonIn (k : String) : Json → Except PyErr Bool
  | .obj fs => .ok (hasKey fs k)
  | .arr xs => .ok (xs.any fun x => match x with | .str s => s = k | _ => false)
  | .str s => .ok (containsSub k.data s.data)
  | _ => .error .typeError

/-! ### `_make_request` (binance_futures.py:54-79)

The HTTP transport is an explicit argument: `none` is a raised transport
exception (the `except` branches return Python `None`), `some r` is a
received response. On a 200 status the body is decoded (`response.json()`
raises on an undecodable body); on any other status the error log also
formats `response.json()`, which equally raises on an undecodable body,
and the call returns `None`. A JSON `null` body decodes to Python `None`,
which callers cannot distinguish from the error return. -/

structure Response where
  status : Nat
  body : String

def make_request (method : String) (t : Option Response) : Except PyErr (Option Json) :=
  if method = "GET" ∨ method = "POST" ∨ method = "DELETE" then
    match t with
    | none => .ok none
    | some r =>
      if r.status = 200 then
        match jsonLoads r.body with
        | none => .error .jsonDecodeError
        | some .null => .ok none
        | some j => .ok (some j)
      else
        match jsonLoads r.body with
        | none => .error .jsonDecodeError
        | some _ => .ok none
  else .error .valueError

/-! ### Domain models

`models.py` is imported by the connector but is not part of the sources
under verification, so the two value types the claims touch are modelled
from the spec. -/

/-- Modelled from the spec: `models.py` is absent from the sources; per §3
a `Contract` holds the exchange-unique instrument symbol, the price and
quantity precisions and the base/quote assets, parsed once from the
exchange metadata. -/
structure Contract where
  symbol : String
  pricePrecision : ℚ
  quantityPrecision : ℚ
  baseAsset : String
  quoteAsset : String
  deriving DecidableEq

/-- Modelled from the spec: the `Contract` constructor reads its fields from
one entry of the exchange-info `symbols` list, raising on a missing or
ill-typed field. -/
def Contract.fromJson (j : Json) : Except PyErr Contract := do
  let s ← j.getKey "symbol" >>= asStr
  let pp ← j.getKey "pricePrecision" >>= jsonToFloat
  let qp ← j.getKey "quantityPrecision" >>= jsonToFloat
  let ba ← j.getKey "baseAsset" >>= asStr
  let qa ← j.getKey "quoteAsset" >>= asStr
  return ⟨s, pp, qp, ba, qa⟩

/-- The loop body of `get_contracts` (binance_futures.py:86-87):
`contracts[contract_data['symbol']] = Contract(contract_data)`. -/
def buildContracts : List Json → List (String × Contract) →
    Except PyErr (List (String × Contract))
  | [], acc => .ok acc
  | j :: rest, acc => do
    let c ← Contract.fromJson j
    let sym ← j.getKey "symbol" >>= asStr
    buildContracts rest (dictSet acc sym c)

/-- `get_contracts` (binance_futures.py:81-89). A `None` from
`_make_request` (transport error or non-200 status) yields the empty
mapping; a decode failure propagates as a raised error. -/
def get_contracts (t : Option Response) : Except PyErr (List (String × Contract)) :=
  match make_request "GET" t with
  | .error e => .error e
  | .ok none => .ok []
  | .ok (some info) =>
    match info with
    | .obj fs =>
      match dictGet fs "symbols" with
      | none => .error (.keyError "symbols")
      | some (.arr xs) => buildContracts xs []
      | some _ => .error .typeError
    | _ => .error .typeError

/-! ### Price cache -/

/-- One cache entry: the Python inner dict `{'bid': …, 'ask': …}`. -/
abbrev PriceEntry := List (String × ℚ)

/-- The cache `self.prices`: symbol → entry, in insertion order. -/
abbrev Prices := List (String × PriceEntry)

/-- The shared create-or-update pattern of `get_bid_ask`
(binance_futures.py:113-117) and `_on_message` (213-217): a fresh symbol
gets a two-field dict, an existing entry has its `bid` then its `ask`
field assigned in place. -/
def upsertPrice (ps : Prices) (symbol : String) (bid ask : ℚ) : Prices :=
  match dictGet ps symbol with
  | none => dictSet ps symbol [("bid", bid), ("ask", ask)]
  | some entry => dictSet ps symbol (dictSet (dictSet entry "bid" bid) "ask" ask)

/-- The entry stored for `symbol` after an upsert. -/
def entryAfter (ps : Prices) (symbol : String) (bid ask : ℚ) : PriceEntry :=
  match dictGet ps symbol with
  | none => [("bid", bid), ("ask", ask)]
  | some entry => dictSet (dictSet entry "bid" bid) "ask" ask

/-- The `bid` field of the cached entry for a symbol. -/
def priceBid (ps : Prices) (symbol : String) : Option ℚ :=
  (dictGet ps symbol).bind fun e => dictGet e "bid"

/-- The `ask` field of the cached entry for a symbol. -/
def priceAsk (ps : Prices) (symbol : String) : Option ℚ :=
  (dictGet ps symbol).bind fun e => dictGet e "ask"

/-- `get_bid_ask` (binance_futures.py:107-119): request the book ticker;
on a `None` result fall through and return `None` with the cache
untouched, otherwise parse both prices, upsert, and return the cache
entry. The result pairs the returned value with the cache state. -/
def get_bid_ask (ps : Prices) (symbol : String) (t : Option Response) :
    Except PyErr (Option PriceEntry × Prices) :=
  match make_request "GET" t with
  | .error e => .error e
  | .ok none => .ok (none, ps)
  | .ok (some ob) => do
    let b ← ob.getKey "bidPrice" >>= jsonToFloat
    let a ← ob.getKey "askPrice" >>= jsonToFloat
    let ps2 := upsertPrice ps symbol b a
    match dictGet ps2 symbol with
    | some e => .ok (some e, ps2)
    | none => .error (.keyError symbol)

/-- `_on_message` (binance_futures.py:207-217): decode the message
(`json.loads` raises on malformed input — there is no guard), and on a
`bookTicker` event upsert the referenced symbol. Any other or missing
event type leaves the cache unchanged. -/
def on_message (ps : Prices) (msg : String) : Except PyErr Prices :=
  match jsonLoads msg with
  | none => .error .jsonDecodeError
  | some data =>
    match jsonIn "e" data with
    | .error e => .error e
    | .ok false => .ok ps
    | .ok true =>
      match data.getKey "e" with
      | .error e => .error e
      | .ok ev =>
        match ev with
        | .str evs =>
          if evs = "bookTicker" then do
            let symbol ← data.getKey "s" >>= asStr
            let b ← data.getKey "b" >>= jsonToFloat
            let a ← data.getKey "a" >>= jsonToFloat
            return upsertPrice ps symbol b a
          else .ok ps
        | _ => .ok ps

/-- The two writers of the price cache: the REST refresh in `get_bid_ask`
and the stream dispatch in `_on_message`. Both write through the same
create-or-update pattern. -/
inductive CacheWrite where
  | rest (symbol : String) (bid ask : ℚ) : CacheWrite
  | stream (symbol : String) (bid ask : ℚ) : CacheWrite

def applyWrite (ps : Prices) : CacheWrite → Prices
  | .rest symbol bid ask => upsertPrice ps symbol bid ask
  | .stream symbol bid ask => upsertPrice ps symbol bid ask

def applyWrites (ws : List CacheWrite) (ps : Prices) : Prices :=
  ws.foldl applyWrite ps

/-! ### Signed operations -/

/-- The two-line signing idiom used by every authenticated operation:
`data['signature'] = self._generate_signature(data)`. The signature is
computed over the parameters built so far and then stored under the fresh
`signature` key. -/
def signParams (secret : String) (data : List (String × String)) : List (String × String) :=
  dictSet data "signature" (generate_signature secret data)

/-- The parameter mapping of `get_balances` (binance_futures.py:121-124):
timestamp, then signature. -/
def get_balances_data (secret ts : String) : List (String × String) :=
  signParams secret (dictSet [] "timestamp" ts)

/-- The parameter mapping of `place_order` (binance_futures.py:135-148):
symbol, side, quantity, type, optional price, optional timeInForce,
timestamp, then signature. Numeric arguments are taken already rendered
to the strings `urlencode` would produce. -/
def place_order_data (secret : String) (c : Contract) (side quantity order_type : String)
    (price tif : Option String) (ts : String) : List (String × String) :=
  let d := dictSet (dictSet (dictSet (dictSet [] "symbol" c.symbol) "side" side)
    "quantity" quantity) "type" order_type
  let d := match price with
    | some p => dictSet d "price" p
    | none => d
  let d := match tif with
    | some v => dictSet d "timeInForce" v
    | none => d
  signParams secret (dictSet d "timestamp" ts)

/-- The parameter mapping of `cancel_order` (binance_futures.py:157-162):
orderId, symbol, timestamp, then signature. -/
def cancel_order_data (secret : String) (orderId : String) (c : Contract) (ts : String) :
    List (String × String) :=
  signParams secret (dictSet (dictSet (dictSet [] "orderId" orderId) "symbol" c.symbol)
    "timestamp" ts)

/-- The parameter mapping of `get_order_status` (binance_futures.py:171-176):
timestamp, symbol, orderId, then signature. -/
def get_order_status_data (secret : String) (ts : String) (c : Contract) (orderId : String) :
    List (String × String) :=
  signParams secret (dictSet (dictSet (dictSet [] "timestamp" ts) "symbol" c.symbol)
    "orderId" orderId)

/-- Modelled from the spec: `models.py` is absent from the sources; per §3
an `OrderStatus` holds the exchange-assigned order id, the symbol, the
status, the average price, the executed quantity and the side, parsed
from an order-endpoint response. -/
structure OrderStatus where
  orderId : ℚ
  symbol : String
  status : String
  avgPrice : ℚ
  executedQty : ℚ
  side : String
  deriving DecidableEq

/-- Modelled from the spec: the `OrderStatus` constructor reads its fields
from the decoded response, raising on a missing or ill-typed field. -/
def OrderStatus.fromJson (j : Json) : Except PyErr OrderStatus := do
  let oid ← j.getKey "orderId" >>= jsonToFloat
  let s ← j.getKey "symbol" >>= asStr
  let st ← j.getKey "status" >>= asStr
  let ap ← j.getKey "avgPrice" >>= jsonToFloat
  let eq ← j.getKey "executedQty" >>= jsonToFloat
  let sd ← j.getKey "side" >>= asStr
  return ⟨oid, s, st, ap, eq, sd⟩

/-- `place_order` (binance_futures.py:135-155): send the signed request;
`None` from `_make_request` is returned as absence, otherwise the decoded
body is turned into an `OrderStatus`. -/
def place_order (secret : String) (c : Contract) (side quantity order_type : String)
    (price tif : Option String) (ts : String) (t : Option Response) :
    Except PyErr (Option OrderStatus) :=
  let _data := place_order_data secret c side quantity order_type price tif ts
  match make_request "POST" t with
  | .error e => .error e
  | .ok none => .ok none
  | .ok (some j) => (OrderStatus.fromJson j).map some

/-! ### Streaming subscription -/

/-- The subscription request dict of `subscribe_channel`
(binance_futures.py:222-229). -/
structure SubRequest where
  method : String
  params : List String
  id : Nat
  deriving DecidableEq

/-- `subscribe_channel` (binance_futures.py:222-235): build the single
SUBSCRIBE request over all contracts, attempt the send (its outcome
`sendOk` is only logged on failure), and increment `ws_id` — the
increment sits after the `try`/`except`, so it happens on both outcomes.
Returns the built request and the new `ws_id`. -/
def subscribe_channel (wsId : Nat) (contracts : List Contract) (channel : String)
    (sendOk : Bool) : SubRequest × Nat :=
  let req : SubRequest :=
    ⟨"SUBSCRIBE", contracts.map fun c => c.symbol.toLower ++ "@" ++ channel, wsId⟩
  let _ := sendOk
  (req, wsId + 1)

/-! ### Auxiliary definitions for the statements and proofs -/

/-- The parameter contributed by an optional argument: one pair when
provided, nothing when omitted. -/
def optField (k : String) (v : Option String) : List (String × String) :=
  match v with
  | some x => [(k, x)]
  | none => []

/-- The big-endian positional value of a byte list. -/
def bytesToNat : List Nat → Nat
  | [] => 0
  | b :: bs => b * 256 ^ bs.length + bytesToNat bs

/-- Well-formedness of the price cache: every stored entry is exactly a
two-field `bid`/`ask` dict. -/
def wfPrices (ps : Prices) : Prop :=
  ∀ sym e, dictGet ps sym = some e → ∃ b a, e = [("bid", b), ("ask", a)]

/-! ## Supporting lemmas -/

theorem dictGet_dictSet_self {α : Type} (d : List (String × α)) (k : String) (v : α) :
    dictGet (dictSet d k v) k = some v := by
  induction d with
  | nil => simp [dictGet, dictSet]
  | cons p rest ih =>
    by_cases h : p.1 = k
    · simp [dictGet, dictSet, h]
    · simp [dictGet, dictSet, h, ih]

theorem dictGet_dictSet_ne {α : Type} (d : List (String × α)) (k k' : String) (v : α)
    (h : k' ≠ k) : dictGet (dictSet d k v) k' = dictGet d k' := by
  have h' : ¬(k = k') := fun hh => h hh.symm
  induction d with
  | nil => simp [dictGet, dictSet, h']
  | cons p rest ih =>
    by_cases hk : p.1 = k
    · subst hk
      simp [dictGet, dictSet, h']
    · by_cases hk' : p.1 = k'
      · simp [dictGet, dictSet, hk, hk', h]
      · simp [dictGet, dictSet, hk, hk', ih]

theorem bytesToNat_lt (l : List Nat) (h : ∀ x ∈ l, x < 256) :
    bytesToNat l < 256 ^ l.length := by
  induction l with
  | nil => simp [bytesToNat]
  | cons b bs ih =>
    have hb : b < 256 := h b (by simp)
    have hbs := ih fun x hx => h x (by simp [hx])
    simp only [bytesToNat, List.length_cons, pow_succ]
    calc b * 256 ^ bs.length + bytesToNat bs
        < (b + 1) * 256 ^ bs.length := by nlinarith [hbs]
      _ ≤ 256 ^ bs.length * 256 := by
          rw [mul_comm]
          exact Nat.mul_le_mul_left _ hb

theorem digestBytes_length (st : H8) : (digestBytes st).length = 32 := by
  simp [digestBytes, wordBytes]

theorem digestBytes_lt (st : H8) : ∀ x ∈ digestBytes st, x < 256 := by
  intro x hx
  simp [digestBytes, wordBytes] at hx
  omega

theorem sha256_length (ms : List Nat) : (sha256 ms).length = 32 := digestBytes_length _

theorem sha256_lt (ms : List Nat) : ∀ x ∈ sha256 ms, x < 256 := digestBytes_lt _

theorem hmac_length (k m : List Nat) : (hmacSha256 k m).length = 32 := sha256_length _

theorem hmac_lt (k m : List Nat) : ∀ x ∈ hmacSha256 k m, x < 256 := sha256_lt _

theorem bytesToNat_inj (l1 : List Nat) : ∀ (l2 : List Nat), l1.length = l2.length →
    (∀ x ∈ l1, x < 256) → (∀ x ∈ l2, x < 256) →
    bytesToNat l1 = bytesToNat l2 → l1 = l2 := by
  induction l1 with
  | nil =>
    intro l2 hlen _ _ _
    cases l2 with
    | nil => rfl
    | cons c cs => simp at hlen
  | cons b bs ih =>
    intro l2 hlen h1 h2 he
    cases l2 with
    | nil => simp at hlen
    | cons c cs =>
      have hlen' : bs.length = cs.length := by simpa using hlen
      have hbs := bytesToNat_lt bs fun x hx => h1 x (by simp [hx])
      have hcs := bytesToNat_lt cs fun x hx => h2 x (by simp [hx])
      rw [hlen'] at hbs
      simp only [bytesToNat, hlen'] at he
      have hKp : 0 < 256 ^ cs.length := Nat.pos_pow_of_pos _ (by norm_num)
      have hb : b = c := by
        have e1 : (b * 256 ^ cs.length + bytesToNat bs) / 256 ^ cs.length = b := by
          rw [mul_comm, Nat.mul_add_div hKp, Nat.div_eq_of_lt hbs, Nat.add_zero]
        have e2 : (c * 256 ^ cs.length + bytesToNat cs) / 256 ^ cs.length = c := by
          rw [mul_comm, Nat.mul_add_div hKp, Nat.div_eq_of_lt hcs, Nat.add_zero]
        rw [← e1, ← e2, he]
      subst hb
      have he' : bytesToNat bs = bytesToNat cs := by omega
      rw [ih cs hlen' (fun x hx => h1 x (by simp [hx])) (fun x hx => h2 x (by simp [hx])) he']

theorem hexChar_injOn : ∀ a < 16, ∀ b < 16, hexChar a = hexChar b → a = b := by decide

theorem hexPairsInj (l1 : List Nat) : ∀ (l2 : List Nat),
    (∀ x ∈ l1, x < 256) → (∀ x ∈ l2, x < 256) →
    (l1.flatMap fun b => [hexChar (b / 16), hexChar (b % 16)]) =
      (l2.flatMap fun b => [hexChar (b / 16), hexChar (b % 16)]) → l1 = l2 := by
  induction l1 with
  | nil =>
    intro l2 _ _ he
    cases l2 with
    | nil => rfl
    | cons c cs => simp at he
  | cons b bs ih =>
    intro l2 h1 h2 he
    cases l2 with
    | nil => simp at he
    | cons c cs =>
      simp only [List.flatMap_cons, List.cons_append, List.nil_append, List.cons.injEq] at he
      have hb := h1 b (by simp)
      have hc := h2 c (by simp)
      have d1 := hexChar_injOn _ (by omega : b / 16 < 16) _ (by omega : c / 16 < 16) he.1
      have d2 := hexChar_injOn _ (by omega : b % 16 < 16) _ (by omega : c % 16 < 16) he.2.1
      have hbc : b = c := by omega
      subst hbc
      have := ih cs (fun x hx => h1 x (by simp [hx])) (fun x hx => h2 x (by simp [hx])) he.2.2
      rw [this]

theorem bytesToHex_inj (l1 l2 : List Nat)
    (h1 : ∀ x ∈ l1, x < 256) (h2 : ∀ x ∈ l2, x < 256)
    (he : bytesToHex l1 = bytesToHex l2) : l1 = l2 :=
  hexPairsInj l1 l2 h1 h2 (congrArg String.data he)

theorem dictGet_upsertPrice_self (ps : Prices) (s : String) (b a : ℚ) :
    dictGet (upsertPrice ps s b a) s = some (entryAfter ps s b a) := by
  cases h : dictGet ps s <;> simp [upsertPrice, entryAfter, h, dictGet_dictSet_self]

theorem wf_upsert (ps : Prices) (s : String) (b a : ℚ) (h : wfPrices ps) :
    wfPrices (upsertPrice ps s b a) := by
  intro sym e he
  by_cases hs : sym = s
  · subst hs
    rw [dictGet_upsertPrice_self] at he
    cases hp : dictGet ps sym with
    | none =>
      refine ⟨b, a, ?_⟩
      simp [entryAfter, hp] at he
      exact he.symm
    | some entry =>
      obtain ⟨b0, a0, rfl⟩ := h sym entry hp
      refine ⟨b, a, ?_⟩
      simp [entryAfter, hp, dictSet] at he
      exact he.symm
  · have hf : dictGet (upsertPrice ps s b a) sym = dictGet ps sym := by
      cases hp : dictGet ps s <;> simp [upsertPrice, hp, dictGet_dictSet_ne _ _ _ _ hs]
    rw [hf] at he
    exact h sym e he

theorem wf_applyWrites (ws : List CacheWrite) (ps : Prices) (h : wfPrices ps) :
    wfPrices (applyWrites ws ps) := by
  induction ws generalizing ps with
  | nil => exact h
  | cons w rest ih =>
    cases w with
    | rest symbol bid ask => exact ih _ (wf_upsert _ _ _ _ h)
    | stream symbol bid ask => exact ih _ (wf_upsert _ _ _ _ h)

/-! ## Claim theorems -/

/-- Claim C1 (counterexample): the sensitivity half of the claim is false as
a universal statement. There exist two parameter mappings with the same
keys in the same order but different values whose signatures under the
same secret coincide: the signature is 64 hex characters, so it takes at
most `256 ^ 32` values, and the pigeonhole principle applied to
`256 ^ 32 + 1` mappings that differ only in the value of parameter `a`
produces a collision. -/
theorem C1_counterexample :
    ∃ p q : List (String × String),
      p.map Prod.fst = q.map Prod.fst ∧ p ≠ q ∧
      generate_signature "secret" p = generate_signature "secret" q := by
  have hcard : Fintype.card (Fin (256 ^ 32)) < Fintype.card (Fin (256 ^ 32 + 1)) := by
    rw [Fintype.card_fin, Fintype.card_fin]
    exact Nat.lt_succ_self _
  let f : Fin (256 ^ 32 + 1) → Fin (256 ^ 32) := fun i =>
    ⟨bytesToNat (hmacSha256 (strBytes "secret")
        (strBytes (urlencode [("a", String.mk (List.replicate i.val 'a'))]))), by
      have hl := hmac_length (strBytes "secret")
        (strBytes (urlencode [("a", String.mk (List.replicate i.val 'a'))]))
      have hb := bytesToNat_lt _ (hmac_lt (strBytes "secret")
        (strBytes (urlencode [("a", String.mk (List.replicate i.val 'a'))])))
      rwa [hl] at hb⟩
  obtain ⟨i, j, hne, hfe⟩ := Fintype.exists_ne_map_eq_of_card_lt f hcard
  refine ⟨[("a", String.mk (List.replicate i.val 'a'))],
    [("a", String.mk (List.replicate j.val 'a'))], by simp, ?_, ?_⟩
  · intro hpq
    apply hne
    have h1 : String.mk (List.replicate i.val 'a') = String.mk (List.replicate j.val 'a') := by
      simpa using hpq
    have h2 : (i : Nat) = (j : Nat) := by
      have := congrArg (fun s => s.data.length) h1
      simpa using this
    exact Fin.ext h2
  · have hv : bytesToNat (hmacSha256 (strBytes "secret")
        (strBytes (urlencode [("a", String.mk (List.replicate i.val 'a'))]))) =
      bytesToNat (hmacSha256 (strBytes "secret")
        (strBytes (urlencode [("a", String.mk (List.replicate j.val 'a'))]))) := by
      have := congrArg Fin.val hfe
      simpa [f] using this
    have hbytes := bytesToNat_inj _ _ (by rw [hmac_length, hmac_length])
      (hmac_lt _ _) (hmac_lt _ _) hv
    show bytesToHex _ = bytesToHex _
    rw [hbytes]

/-- Claim C1 (amended): the signature generator is a pure function of the
secret and the ordered parameter mapping — re-signing the same mapping
yields the identical signature — and two mappings get equal signatures
exactly when their HMAC-SHA256 digests over the canonical query-string
encodings coincide; in particular any two mappings with different digests
(all known instances) get different signatures, while equal-digest
collisions exist only by pigeonhole. -/
theorem C1_amended_claim :
    (∀ secret data, generate_signature secret data = generate_signature secret data) ∧
    (∀ secret d1 d2,
      generate_signature secret d1 = generate_signature secret d2 ↔
        hmacSha256 (strBytes secret) (strBytes (urlencode d1)) =
          hmacSha256 (strBytes secret) (strBytes (urlencode d2))) := by
  refine ⟨fun _ _ => rfl, fun secret d1 d2 => ⟨fun h => ?_, fun h => ?_⟩⟩
  · exact bytesToHex_inj _ _ (hmac_lt _ _) (hmac_lt _ _) h
  · show bytesToHex _ = bytesToHex _
    rw [h]

/-- Claim C2: the per-message stream handler is not total — `_on_message`
begins with an unguarded `json.loads(msg)`, so a malformed (non-JSON)
message raises a decode error out of the handler instead of being treated
as a dropped message; a well-formed book-ticker message is processed
normally. -/
theorem C2_claim :
    on_message [] "oops" = .error .jsonDecodeError ∧
    on_message []
        "\x7b\"e\":\"bookTicker\",\"s\":\"BTCUSDT\",\"b\":\"100\",\"a\":\"101\"\x7d" =
      .ok [("BTCUSDT", [("bid", ((100 : Nat) : ℚ)), ("ask", ((101 : Nat) : ℚ))])] :=
  ⟨rfl, rfl⟩

/-- Claim C3: the `place_order` request parameters contain a `price` key iff
a price argument was provided and a `timeInForce` key iff a timeInForce
argument was provided (omission, not null fields), but the operation does
not return absence on every failure: absence is returned on transport
failure and on a non-200 response with a decodable body, and an
`OrderStatus` on a successful decodable response, while a failure
response with an undecodable body makes `response.json()` raise out of
the call (the unguarded lines 76/78 of `_make_request`) instead of
returning absence — shown by the last two conjuncts at status 500 and
status 200 with body `)`. -/
theorem C3_claim (secret ts side qty otype : String) (c : Contract)
    (price tif : Option String) :
    hasKey (place_order_data secret c side qty otype price tif ts) "price" = price.isSome ∧
    hasKey (place_order_data secret c side qty otype price tif ts) "timeInForce" = tif.isSome ∧
    place_order secret c side qty otype price tif ts none = .ok none ∧
    (∀ r j, r.status ≠ 200 → jsonLoads r.body = some j →
      place_order secret c side qty otype price tif ts (some r) = .ok none) ∧
    (∀ r j os, r.status = 200 → jsonLoads r.body = some j →
      OrderStatus.fromJson j = .ok os →
      place_order secret c side qty otype price tif ts (some r) = .ok (some os)) ∧
    place_order secret c side qty otype price tif ts (some ⟨500, ")"⟩) =
      .error .jsonDecodeError ∧
    place_order secret c side qty otype price tif ts (some ⟨200, ")"⟩) =
      .error .jsonDecodeError := by
  refine ⟨?_, ?_, rfl, ?_, ?_, rfl, rfl⟩
  · cases price <;> cases tif <;>
      simp [place_order_data, signParams, dictSet, hasKey, dictGet]
  · cases price <;> cases tif <;>
      simp [place_order_data, signParams, dictSet, hasKey, dictGet]
  · intro r j hst hj
    simp [place_order, make_request, hst, hj]
  · intro r j os hst hj hos
    cases j <;>
      simp_all [place_order, make_request, OrderStatus.fromJson, Json.getKey,
        Bind.bind, Except.bind, Except.map]

/-- Claim C3 (witness): at concrete inputs, a provided price appears as a
`price` key, an omitted price leaves no `price` key, a non-200 response
with a decodable body yields absence, and a 200 response with a decodable
order payload yields the parsed `OrderStatus`. -/
theorem C3_witness :
    hasKey (place_order_data "sec" ⟨"BTCUSDT", 2, 3, "BTC", "USDT"⟩ "BUY" "1" "LIMIT"
      (some "100") none "1700000000000") "price" = true ∧
    hasKey (place_order_data "sec" ⟨"BTCUSDT", 2, 3, "BTC", "USDT"⟩ "BUY" "1" "LIMIT"
      none (some "GTC") "1700000000000") "price" = false ∧
    place_order "sec" ⟨"BTCUSDT", 2, 3, "BTC", "USDT"⟩ "BUY" "1" "LIMIT"
      (some "100") none "1700000000000" (some ⟨503, "\x7b\x7d"⟩) = .ok none ∧
    place_order "sec" ⟨"BTCUSDT", 2, 3, "BTC", "USDT"⟩ "BUY" "1" "LIMIT"
      (some "100") none "1700000000000"
      (some ⟨200, "\x7b\"orderId\":123,\"symbol\":\"BTCUSDT\",\"status\":\"NEW\",\"avgPrice\":\"0\",\"executedQty\":\"0\",\"side\":\"BUY\"\x7d"⟩) =
      .ok (some ⟨((123 : Nat) : ℚ), "BTCUSDT", "NEW", ((0 : Nat) : ℚ), ((0 : Nat) : ℚ), "BUY"⟩) := by
  refine ⟨(C3_claim "sec" "1700000000000" "BUY" "1" "LIMIT"
      ⟨"BTCUSDT", 2, 3, "BTC", "USDT"⟩ (some "100") none).1,
    (C3_claim "sec" "1700000000000" "BUY" "1" "LIMIT"
      ⟨"BTCUSDT", 2, 3, "BTC", "USDT"⟩ none (some "GTC")).1, ?_, ?_⟩
  · exact (C3_claim "sec" "1700000000000" "BUY" "1" "LIMIT"
      ⟨"BTCUSDT", 2, 3, "BTC", "USDT"⟩ (some "100") none).2.2.2.1
      ⟨503, "\x7b\x7d"⟩ (Json.obj []) (by decide) rfl
  · exact (C3_claim "sec" "1700000000000" "BUY" "1" "LIMIT"
      ⟨"BTCUSDT", 2, 3, "BTC", "USDT"⟩ (some "100") none).2.2.2.2.1
      ⟨200, "\x7b\"orderId\":123,\"symbol\":\"BTCUSDT\",\"status\":\"NEW\",\"avgPrice\":\"0\",\"executedQty\":\"0\",\"side\":\"BUY\"\x7d"⟩
      (Json.obj [("orderId", Json.num ((123 : Nat) : ℚ)), ("symbol", Json.str "BTCUSDT"),
        ("status", Json.str "NEW"), ("avgPrice", Json.str "0"),
        ("executedQty", Json.str "0"), ("side", Json.str "BUY")])
      ⟨((123 : Nat) : ℚ), "BTCUSDT", "NEW", ((0 : Nat) : ℚ), ((0 : Nat) : ℚ), "BUY"⟩
      rfl rfl rfl

/-- Claim C4: an upsert into the price cache yields an entry whose `bid` and
`ask` fields are exactly the just-written values, creates the two-field
entry when the symbol was absent, and leaves the entries of all other
symbols unchanged. -/
theorem C4_claim (ps : Prices) (s : String) (b a : ℚ) :
    priceBid (upsertPrice ps s b a) s = some b ∧
    priceAsk (upsertPrice ps s b a) s = some a ∧
    (dictGet ps s = none → dictGet (upsertPrice ps s b a) s = some [("bid", b), ("ask", a)]) ∧
    (∀ s2, s2 ≠ s → dictGet (upsertPrice ps s b a) s2 = dictGet ps s2) := by
  refine ⟨?_, ?_, ?_, ?_⟩
  · cases h : dictGet ps s <;>
      simp [upsertPrice, h, priceBid, dictGet_dictSet_self, dictGet_dictSet_ne, dictGet]
  · cases h : dictGet ps s <;>
      simp [upsertPrice, h, priceAsk, dictGet_dictSet_self, dictGet_dictSet_ne, dictGet]
  · intro h
    simp [upsertPrice, h, dictGet_dictSet_self]
  · intro s2 hne
    cases h : dictGet ps s <;> simp [upsertPrice, h, dictGet_dictSet_ne _ _ _ _ hne]

/-- Claim C4 (witness): upserting `BTCUSDT` into a cache holding `ETHUSDT`
creates the new two-field entry, reads back the just-written bid and ask,
and leaves the `ETHUSDT` entry untouched. -/
theorem C4_witness :
    priceBid (upsertPrice [("ETHUSDT", [("bid", 1), ("ask", 2)])] "BTCUSDT" 3 4)
      "BTCUSDT" = some 3 ∧
    priceAsk (upsertPrice [("ETHUSDT", [("bid", 1), ("ask", 2)])] "BTCUSDT" 3 4)
      "BTCUSDT" = some 4 ∧
    dictGet (upsertPrice [("ETHUSDT", [("bid", 1), ("ask", 2)])] "BTCUSDT" 3 4)
      "BTCUSDT" = some [("bid", 3), ("ask", 4)] ∧
    dictGet (upsertPrice [("ETHUSDT", [("bid", 1), ("ask", 2)])] "BTCUSDT" 3 4)
      "ETHUSDT" = some [("bid", 1), ("ask", 2)] := by
  have h := C4_claim [("ETHUSDT", [("bid", 1), ("ask", 2)])] "BTCUSDT" 3 4
  exact ⟨h.1, h.2.1, h.2.2.1 rfl, (h.2.2.2 "ETHUSDT" (by decide)).trans rfl⟩

/-- Claim C5: `get_bid_ask` returns absence and leaves the cache unchanged
on a transport failure and on a non-200 response with a decodable body,
and on success returns the bid/ask entry while writing it into the
cache — but not on *any* non-200 error: when the error body is
undecodable, the logging call `response.json()` on line 78 raises out of
the operation instead of returning absence, shown by the last conjunct
at status 500 with body `)`. -/
theorem C5_claim (ps : Prices) (sym : String) :
    (get_bid_ask ps sym none = .ok (none, ps)) ∧
    (∀ r j, r.status ≠ 200 → jsonLoads r.body = some j →
      get_bid_ask ps sym (some r) = .ok (none, ps)) ∧
    (∀ r fs jb ja qb qa, r.status = 200 → jsonLoads r.body = some (.obj fs) →
      dictGet fs "bidPrice" = some jb → jsonToFloat jb = .ok qb →
      dictGet fs "askPrice" = some ja → jsonToFloat ja = .ok qa →
      get_bid_ask ps sym (some r) =
        .ok (some (entryAfter ps sym qb qa), upsertPrice ps sym qb qa)) ∧
    get_bid_ask ps sym (some ⟨500, ")"⟩) = .error .jsonDecodeError := by
  refine ⟨rfl, ?_, ?_, rfl⟩
  · intro r j hst hj
    simp [get_bid_ask, make_request, hst, hj]
  · intro r fs jb ja qb qa hst hj hb hqb ha hqa
    simp [get_bid_ask, make_request, hst, hj, Json.getKey, hb, hqb, ha, hqa,
      Bind.bind, Except.bind, dictGet_upsertPrice_self]

/-- Claim C5 (witness): at concrete inputs, a transport failure and a 503
response both return absence with the empty cache preserved, and a 200
book-ticker response returns the parsed pair and writes it into the
cache. -/
theorem C5_witness :
    get_bid_ask [] "BTCUSDT" none = .ok (none, []) ∧
    get_bid_ask [] "BTCUSDT" (some ⟨503, "\x7b\x7d"⟩) = .ok (none, []) ∧
    get_bid_ask [] "BTCUSDT"
        (some ⟨200, "\x7b\"bidPrice\":\"100\",\"askPrice\":\"101\"\x7d"⟩) =
      .ok (some [("bid", ((100 : Nat) : ℚ)), ("ask", ((101 : Nat) : ℚ))],
        [("BTCUSDT", [("bid", ((100 : Nat) : ℚ)), ("ask", ((101 : Nat) : ℚ))])]) := by
  have h := C5_claim [] "BTCUSDT"
  refine ⟨h.1, h.2.1 ⟨503, "\x7b\x7d"⟩ (Json.obj []) (by decide) rfl, ?_⟩
  exact (h.2.2.1 ⟨200, "\x7b\"bidPrice\":\"100\",\"askPrice\":\"101\"\x7d"⟩
    [("bidPrice", Json.str "100"), ("askPrice", Json.str "101")]
    (Json.str "100") (Json.str "101") ((100 : Nat) : ℚ) ((101 : Nat) : ℚ)
    rfl rfl rfl rfl rfl rfl).trans rfl

/-- Claim C6: `get_contracts` degrades to the empty mapping on a transport
failure and on a non-200 response with a decodable body, but a decode
error is not surfaced as the empty mapping — a 200 response with a
malformed body makes `response.json()` raise, and the error propagates to
the caller. -/
theorem C6_claim :
    get_contracts none = .ok [] ∧
    get_contracts (some ⟨400, "\x7b\"code\":-1121\x7d"⟩) = .ok [] ∧
    get_contracts (some ⟨200, ")"⟩) = .error .jsonDecodeError :=
  ⟨rfl, rfl, rfl⟩

/-- Claim C7: `subscribe_channel` builds the single request
`{method: SUBSCRIBE, params: [symbol_lower@channel, …], id: ws_id}` with
the parameters in contract-list order, and increments the request-id
counter by one whether the send succeeded or failed. -/
theorem C7_claim (wsId : Nat) (contracts : List Contract) (channel : String)
    (sendOk : Bool) :
    (subscribe_channel wsId contracts channel sendOk).1 =
      ⟨"SUBSCRIBE", contracts.map fun c => c.symbol.toLower ++ "@" ++ channel, wsId⟩ ∧
    (subscribe_channel wsId contracts channel true).2 = wsId + 1 ∧
    (subscribe_channel wsId contracts channel false).2 = wsId + 1 :=
  ⟨rfl, rfl, rfl⟩

/-- Claim C8: `_make_request` raises `ValueError` for every HTTP method
other than GET, POST and DELETE, and never raises `ValueError` for those
three. -/
theorem C8_claim (m : String) (t : Option Response) :
    (m ≠ "GET" → m ≠ "POST" → m ≠ "DELETE" → make_request m t = .error .valueError) ∧
    ((m = "GET" ∨ m = "POST" ∨ m = "DELETE") → make_request m t ≠ .error .valueError) := by
  constructor
  · intro h1 h2 h3
    simp [make_request, h1, h2, h3]
  · intro h
    rw [make_request.eq_def, if_pos h]
    cases t with
    | none => simp
    | some r =>
      by_cases hs : r.status = 200
      · cases hj : jsonLoads r.body with
        | none => simp [hs, hj]
        | some j => cases j <;> simp [hs, hj]
      · cases hj : jsonLoads r.body with
        | none => simp [hs, hj]
        | some j => simp [hs, hj]

/-- Claim C8 (witness): the unsupported method `PUT` raises `ValueError`,
while `GET` does not. -/
theorem C8_witness :
    make_request "PUT" none = .error .valueError ∧
    make_request "GET" none ≠ .error .valueError :=
  ⟨(C8_claim "PUT" none).1 (by decide) (by decide) (by decide),
    (C8_claim "GET" none).2 (Or.inl rfl)⟩

/-- Claim C9: after any sequence of writes by the two cache writers (REST
refresh and stream dispatch), every entry present in the price cache has
both a `bid` field and an `ask` field. -/
theorem C9_claim (ws : List CacheWrite) (sym : String) (e : PriceEntry)
    (h : dictGet (applyWrites ws []) sym = some e) :
    (dictGet e "bid").isSome = true ∧ (dictGet e "ask").isSome = true := by
  obtain ⟨b, a, rfl⟩ := wf_applyWrites ws [] (by intro _ _ hh; simp [dictGet] at hh) sym e h
  simp [dictGet]

/-- Claim C9 (witness): after a stream write followed by a REST write for
the same symbol, the stored entry has both fields. -/
theorem C9_witness :
    (dictGet ([("bid", (3 : ℚ)), ("ask", 4)] : PriceEntry) "bid").isSome = true ∧
    (dictGet ([("bid", (3 : ℚ)), ("ask", 4)] : PriceEntry) "ask").isSome = true :=
  C9_claim [CacheWrite.stream "BTCUSDT" 1 2, CacheWrite.rest "BTCUSDT" 3 4] "BTCUSDT"
    [("bid", 3), ("ask", 4)] rfl

/-- Claim C10: every authenticated operation signs exactly the parameter
mapping built so far — in the operation's fixed insertion order, with the
timestamp included — and appends the signature afterwards, so the signed
payload never contains the `signature` field. -/
theorem C10_claim (secret ts side qty otype oid : String) (c : Contract)
    (price tif : Option String) :
    (get_balances_data secret ts =
      [("timestamp", ts)] ++
        [("signature", generate_signature secret [("timestamp", ts)])]) ∧
    (cancel_order_data secret oid c ts =
      [("orderId", oid), ("symbol", c.symbol), ("timestamp", ts)] ++
        [("signature", generate_signature secret
          [("orderId", oid), ("symbol", c.symbol), ("timestamp", ts)])]) ∧
    (get_order_status_data secret ts c oid =
      [("timestamp", ts), ("symbol", c.symbol), ("orderId", oid)] ++
        [("signature", generate_signature secret
          [("timestamp", ts), ("symbol", c.symbol), ("orderId", oid)])]) ∧
    (place_order_data secret c side qty otype price tif ts =
      ([("symbol", c.symbol), ("side", side), ("quantity", qty), ("type", otype)] ++
          optField "price" price ++ optField "timeInForce" tif ++ [("timestamp", ts)]) ++
        [("signature", generate_signature secret
          ([("symbol", c.symbol), ("side", side), ("quantity", qty), ("type", otype)] ++
            optField "price" price ++ optField "timeInForce" tif ++ [("timestamp", ts)]))]) ∧
    hasKey ([("timestamp", ts)] : List (String × String)) "signature" = false ∧
    hasKey [("orderId", oid), ("symbol", c.symbol), ("timestamp", ts)] "signature" = false ∧
    hasKey [("timestamp", ts), ("symbol", c.symbol), ("orderId", oid)] "signature" = false ∧
    hasKey ([("symbol", c.symbol), ("side", side), ("quantity", qty), ("type", otype)] ++
      optField "price" price ++ optField "timeInForce" tif ++ [("timestamp", ts)])
      "signature" = false := by
  refine ⟨?_, ?_, ?_, ?_, ?_, ?_, ?_, ?_⟩
  · simp [get_balances_data, signParams, dictSet]
  · simp [cancel_order_data, signParams, dictSet]
  · simp [get_order_status_data, signParams, dictSet]
  · cases price <;> cases tif <;> simp [place_order_data, signParams, dictSet, optField]
  · simp [hasKey, dictGet]
  · simp [hasKey, dictGet]
  · simp [hasKey, dictGet]
  · cases price <;> cases tif <;> simp [hasKey, dictGet, optField]

end BF
